import Mathlib

/-!
Verification of the task-execution shell in ClaudeLocal8.py.

The Python source is shallowly embedded: pure fragments become Lean
functions, stateful fragments thread explicit state records, and fallible
fragments return Option or carry an explicit error component.  External
collaborators (the Anthropic client, json.loads, the operating system
clock, spawned processes) are parameters of the embedding, supplied
through an environment record, so that the control flow of the embedded
code is exactly the control flow of the source.
-/

set_option autoImplicit false

namespace ClaudeLocal

/-- Python str whitespace test restricted to the ASCII characters that
str.split and str.strip treat as whitespace. -/
def pyIsSpace (c : Char) : Bool :=
  c == ' ' || c == '\t' || c == '\n' || c == '\r' || c.toNat == 11 || c.toNat == 12

/-- Python str.strip: drop whitespace from both ends. -/
def pyStrip (s : String) : String :=
  ⟨((s.toList.dropWhile pyIsSpace).reverse.dropWhile pyIsSpace).reverse⟩

/-- Python str.split() with no separator: split on runs of whitespace,
discarding empty pieces.  The accumulator holds the current token reversed. -/
def pySplitAux : List Char → List Char → List (List Char)
  | [], acc => if acc.isEmpty then [] else [acc.reverse]
  | c :: rest, acc =>
    if pyIsSpace c then
      if acc.isEmpty then pySplitAux rest []
      else acc.reverse :: pySplitAux rest []
    else pySplitAux rest (c :: acc)

def pySplit (s : String) : List String :=
  (pySplitAux s.toList []).map (fun cs => ⟨cs⟩)

/-! ## Decimal rendering and parsing

Models the decimal digits used by datetime.isoformat (zero padded
fields) and datetime.fromisoformat.  These are the collaborator library
functions the history persistence code relies on; they are given a
concrete executable model so the round trip can be proved. -/

def digitChar : Nat → Char
  | 0 => '0' | 1 => '1' | 2 => '2' | 3 => '3' | 4 => '4'
  | 5 => '5' | 6 => '6' | 7 => '7' | 8 => '8' | _ => '9'

def digitVal (c : Char) : Nat := c.toNat - 48

def natDigits (n : Nat) : List Char :=
  if n < 10 then [digitChar n]
  else natDigits (n / 10) ++ [digitChar (n % 10)]
  termination_by n
  decreasing_by exact Nat.div_lt_self (by omega) (by omega)

def stepDigit (a : Nat) (c : Char) : Nat := a * 10 + digitVal c

def digitsVal (cs : List Char) : Nat := cs.foldl stepDigit 0

def parseDigits (cs : List Char) : Option Nat :=
  if cs.isEmpty then none
  else if cs.all Char.isDigit then some (digitsVal cs) else none

/-- Zero-pad a decimal rendering on the left to width w. -/
def padDigits (w n : Nat) : List Char :=
  List.replicate (w - (natDigits n).length) '0' ++ natDigits n

theorem digitVal_digitChar (k : Nat) (h : k < 10) : digitVal (digitChar k) = k := by
  interval_cases k <;> decide

theorem digitChar_isDigit (k : Nat) : (digitChar k).isDigit = true := by
  unfold digitChar
  split <;> decide

theorem natDigits_ne_nil (n : Nat) : natDigits n ≠ [] := by
  unfold natDigits
  split <;> simp

theorem natDigits_all_digit (n : Nat) : ∀ c ∈ natDigits n, c.isDigit = true := by
  induction n using natDigits.induct with
  | case1 n h =>
    intro c hc
    rw [natDigits, if_pos h] at hc
    simp at hc
    subst hc
    exact digitChar_isDigit n
  | case2 n h ih =>
    intro c hc
    rw [natDigits, if_neg h] at hc
    rcases List.mem_append.mp hc with h1 | h2
    · exact ih c h1
    · simp at h2
      subst h2
      exact digitChar_isDigit (n % 10)

theorem foldl_natDigits (n : Nat) :
    ∀ a : Nat, (natDigits n).foldl stepDigit a = a * 10 ^ (natDigits n).length + n := by
  induction n using natDigits.induct with
  | case1 n h =>
    intro a
    rw [natDigits, if_pos h]
    simp [stepDigit, digitVal_digitChar n h]
  | case2 n h ih =>
    intro a
    rw [natDigits, if_neg h]
    rw [List.foldl_append, ih]
    simp only [List.foldl_cons, List.foldl_nil, List.length_append, List.length_singleton]
    rw [stepDigit, digitVal_digitChar (n % 10) (Nat.mod_lt _ (by omega))]
    have hdm : 10 * (n / 10) + n % 10 = n := Nat.div_add_mod n 10
    rw [pow_succ]
    ring_nf
    omega

theorem digitsVal_natDigits (n : Nat) : digitsVal (natDigits n) = n := by
  have := foldl_natDigits n 0
  simpa [digitsVal] using this

theorem foldl_replicate_zero (k : Nat) :
    (List.replicate k '0').foldl stepDigit 0 = 0 := by
  induction k with
  | zero => rfl
  | succ k ih => simpa [List.replicate_succ, stepDigit, digitVal] using ih

theorem digitsVal_padDigits (w n : Nat) : digitsVal (padDigits w n) = n := by
  rw [padDigits, digitsVal, List.foldl_append, foldl_replicate_zero]
  exact digitsVal_natDigits n

theorem padDigits_all_digit (w n : Nat) : ∀ c ∈ padDigits w n, c.isDigit = true := by
  intro c hc
  rcases List.mem_append.mp hc with h1 | h2
  · rw [List.eq_of_mem_replicate h1]
    decide
  · exact natDigits_all_digit n c h2

theorem padDigits_ne_nil (w n : Nat) : padDigits w n ≠ [] := by
  intro h
  have := natDigits_ne_nil n
  rcases List.append_eq_nil.mp h with ⟨_, h2⟩
  exact this h2

theorem parseDigits_padDigits (w n : Nat) : parseDigits (padDigits w n) = some n := by
  rw [parseDigits]
  rw [if_neg (by simpa [List.isEmpty_iff] using padDigits_ne_nil w n)]
  rw [if_pos (by rw [List.all_eq_true]; exact padDigits_all_digit w n)]
  rw [digitsVal_padDigits]

theorem not_mem_padDigits (c : Char) (hc : c.isDigit = false) (w n : Nat) :
    c ∉ padDigits w n := by
  intro hmem
  have := padDigits_all_digit w n c hmem
  rw [hc] at this
  exact Bool.false_ne_true this

/-! ## Splitting on a separator character

Model of str.split(sep) as used when parsing an ISO timestamp back into
its fields. -/

def splitOnC (sep : Char) : List Char → List (List Char)
  | [] => [[]]
  | c :: rest =>
    if c = sep then [] :: splitOnC sep rest
    else
      match splitOnC sep rest with
      | [] => [[c]]
      | g :: gs => (c :: g) :: gs

theorem splitOnC_ne_nil (sep : Char) (cs : List Char) : splitOnC sep cs ≠ [] := by
  induction cs with
  | nil => simp [splitOnC]
  | cons c rest ih =>
    rw [splitOnC]
    split
    · simp
    · match h : splitOnC sep rest with
      | [] => simp
      | g :: gs => simp

theorem splitOnC_no_sep (sep : Char) (cs : List Char) (h : sep ∉ cs) :
    splitOnC sep cs = [cs] := by
  induction cs with
  | nil => rfl
  | cons c rest ih =>
    rw [splitOnC]
    have hc : c ≠ sep := fun he => h (he ▸ List.mem_cons_self c rest)
    rw [if_neg hc]
    rw [ih (fun hm => h (List.mem_cons_of_mem c hm))]

theorem splitOnC_append (sep : Char) (xs ys : List Char) (h : sep ∉ xs) :
    splitOnC sep (xs ++ sep :: ys) = xs :: splitOnC sep ys := by
  induction xs with
  | nil => simp [splitOnC]
  | cons c rest ih =>
    rw [List.cons_append, splitOnC]
    have hc : c ≠ sep := fun he => h (he ▸ List.mem_cons_self c rest)
    rw [if_neg hc]
    rw [ih (fun hm => h (List.mem_cons_of_mem c hm))]

/-! ## datetime

Model of the naive datetime values produced by datetime.now(), together
with isoformat and fromisoformat.  Python omits the fractional part when
microsecond is zero; fromisoformat accepts both shapes. -/

structure PyDateTime where
  year : Nat
  month : Nat
  day : Nat
  hour : Nat
  minute : Nat
  second : Nat
  microsecond : Nat
deriving DecidableEq

def isoformatL (d : PyDateTime) : List Char :=
  padDigits 4 d.year ++ '-' :: padDigits 2 d.month ++ '-' :: padDigits 2 d.day ++
  'T' :: padDigits 2 d.hour ++ ':' :: padDigits 2 d.minute ++ ':' :: padDigits 2 d.second ++
  (if d.microsecond = 0 then [] else '.' :: padDigits 6 d.microsecond)

def isoformat (d : PyDateTime) : String := ⟨isoformatL d⟩

def parseHMS (y mo dy : Nat) (hms : List Char) (us : Nat) : Option PyDateTime :=
  match splitOnC ':' hms with
  | [hs, mis, ss] => do
    let h ← parseDigits hs
    let mi ← parseDigits mis
    let s ← parseDigits ss
    some ⟨y, mo, dy, h, mi, s, us⟩
  | _ => none

def parseTimePart (y mo dy : Nat) (tpart : List Char) : Option PyDateTime :=
  match splitOnC '.' tpart with
  | [hms] => parseHMS y mo dy hms 0
  | [hms, usPart] => do
    let us ← parseDigits usPart
    parseHMS y mo dy hms us
  | _ => none

def fromisoformatL (cs : List Char) : Option PyDateTime :=
  match splitOnC 'T' cs with
  | [dpart, tpart] =>
    match splitOnC '-' dpart with
    | [ys, mos, ds] => do
      let y ← parseDigits ys
      let mo ← parseDigits mos
      let dy ← parseDigits ds
      parseTimePart y mo dy tpart
    | _ => none
  | _ => none

def fromisoformat (s : String) : Option PyDateTime := fromisoformatL s.toList

/-- The date segment of an ISO timestamp, right-nested. -/
def dateL (y mo dy : Nat) : List Char :=
  padDigits 4 y ++ ('-' :: (padDigits 2 mo ++ ('-' :: padDigits 2 dy)))

/-- The time segment without fractional seconds, right-nested. -/
def hmsL (h mi s : Nat) : List Char :=
  padDigits 2 h ++ (':' :: (padDigits 2 mi ++ (':' :: padDigits 2 s)))

/-- The time segment with fractional seconds. -/
def timeUsL (h mi s us : Nat) : List Char :=
  hmsL h mi s ++ ('.' :: padDigits 6 us)

theorem not_mem_dateL (c : Char) (hc : c.isDigit = false) (hd : c ≠ '-') (y mo dy : Nat) :
    c ∉ dateL y mo dy := by
  intro hmem
  rcases List.mem_append.mp hmem with h | h
  · exact not_mem_padDigits c hc _ _ h
  rcases List.mem_cons.mp h with h | h
  · exact hd h
  rcases List.mem_append.mp h with h | h
  · exact not_mem_padDigits c hc _ _ h
  rcases List.mem_cons.mp h with h | h
  · exact hd h
  exact not_mem_padDigits c hc _ _ h

theorem not_mem_hmsL (c : Char) (hc : c.isDigit = false) (hcol : c ≠ ':') (h mi s : Nat) :
    c ∉ hmsL h mi s := by
  intro hmem
  rcases List.mem_append.mp hmem with h1 | h1
  · exact not_mem_padDigits c hc _ _ h1
  rcases List.mem_cons.mp h1 with h1 | h1
  · exact hcol h1
  rcases List.mem_append.mp h1 with h1 | h1
  · exact not_mem_padDigits c hc _ _ h1
  rcases List.mem_cons.mp h1 with h1 | h1
  · exact hcol h1
  exact not_mem_padDigits c hc _ _ h1

theorem not_mem_timeUsL (c : Char) (hc : c.isDigit = false) (hcol : c ≠ ':')
    (hdot : c ≠ '.') (h mi s us : Nat) : c ∉ timeUsL h mi s us := by
  intro hmem
  rcases List.mem_append.mp hmem with h1 | h1
  · exact not_mem_hmsL c hc hcol h mi s h1
  rcases List.mem_cons.mp h1 with h1 | h1
  · exact hdot h1
  exact not_mem_padDigits c hc _ _ h1

theorem split_dateL (y mo dy : Nat) :
    splitOnC '-' (dateL y mo dy) = [padDigits 4 y, padDigits 2 mo, padDigits 2 dy] := by
  rw [dateL]
  rw [splitOnC_append '-' _ _ (not_mem_padDigits '-' (by decide) 4 y)]
  rw [splitOnC_append '-' _ _ (not_mem_padDigits '-' (by decide) 2 mo)]
  rw [splitOnC_no_sep '-' _ (not_mem_padDigits '-' (by decide) 2 dy)]

theorem split_hmsL (h mi s : Nat) :
    splitOnC ':' (hmsL h mi s) = [padDigits 2 h, padDigits 2 mi, padDigits 2 s] := by
  rw [hmsL]
  rw [splitOnC_append ':' _ _ (not_mem_padDigits ':' (by decide) 2 h)]
  rw [splitOnC_append ':' _ _ (not_mem_padDigits ':' (by decide) 2 mi)]
  rw [splitOnC_no_sep ':' _ (not_mem_padDigits ':' (by decide) 2 s)]

theorem parseHMS_pad (y mo dy h mi s us : Nat) :
    parseHMS y mo dy (hmsL h mi s) us = some ⟨y, mo, dy, h, mi, s, us⟩ := by
  rw [parseHMS, split_hmsL]
  simp [parseDigits_padDigits]

/-- datetime.fromisoformat inverts datetime.isoformat. -/
theorem fromisoformatL_isoformatL (d : PyDateTime) :
    fromisoformatL (isoformatL d) = some d := by
  obtain ⟨y, mo, dy, h, mi, s, us⟩ := d
  by_cases hus : us = 0
  · subst hus
    have hshape : isoformatL ⟨y, mo, dy, h, mi, s, 0⟩ =
        dateL y mo dy ++ ('T' :: hmsL h mi s) := by
      simp [isoformatL, dateL, hmsL, List.append_assoc]
    rw [fromisoformatL, hshape]
    rw [splitOnC_append 'T' _ _ (not_mem_dateL 'T' (by decide) (by decide) y mo dy)]
    rw [splitOnC_no_sep 'T' _ (not_mem_hmsL 'T' (by decide) (by decide) h mi s)]
    dsimp only
    rw [split_dateL]
    simp only [parseDigits_padDigits, Option.some_bind]
    unfold parseTimePart
    rw [splitOnC_no_sep '.' _ (not_mem_hmsL '.' (by decide) (by decide) h mi s)]
    exact parseHMS_pad y mo dy h mi s 0
  · have hshape : isoformatL ⟨y, mo, dy, h, mi, s, us⟩ =
        dateL y mo dy ++ ('T' :: timeUsL h mi s us) := by
      simp [isoformatL, dateL, hmsL, timeUsL, List.append_assoc, hus]
    rw [fromisoformatL, hshape]
    rw [splitOnC_append 'T' _ _ (not_mem_dateL 'T' (by decide) (by decide) y mo dy)]
    rw [splitOnC_no_sep 'T' _
      (not_mem_timeUsL 'T' (by decide) (by decide) (by decide) h mi s us)]
    dsimp only
    rw [split_dateL]
    simp only [parseDigits_padDigits, Option.some_bind]
    unfold parseTimePart
    rw [timeUsL]
    rw [splitOnC_append '.' _ _ (not_mem_hmsL '.' (by decide) (by decide) h mi s)]
    rw [splitOnC_no_sep '.' _ (not_mem_padDigits '.' (by decide) 6 us)]
    simp only [parseDigits_padDigits, Option.some_bind]
    exact parseHMS_pad y mo dy h mi s us

theorem fromisoformat_isoformat (d : PyDateTime) :
    fromisoformat (isoformat d) = some d := by
  rw [fromisoformat, isoformat]
  exact fromisoformatL_isoformatL d

/-! ## Conversation data model (ClaudeLocal8.py lines 104-125)

MessageType is the four-valued enum; ConversationEntry carries a type, a
content string, a creation timestamp and an open metadata bag.  Metadata
values are the JSON scalars actually stored by the program (strings for
stdout/stderr, integers for return codes; the float execution_time is
carried as an opaque numeric literal string in the num constructor, since
no claim inspects its value and floating point is outside the embedding). -/

inductive MessageType where
  | user
  | assistant
  | command
  | system
deriving DecidableEq

/-- The .value string of the Python enum member. -/
def MessageType.value : MessageType → String
  | .user => "user"
  | .assistant => "assistant"
  | .command => "command"
  | .system => "system"

/-- MessageType(s): look an enum member up by value; none models the
ValueError raised for an unknown value. -/
def MessageType.ofValue : String → Option MessageType
  | "user" => some .user
  | "assistant" => some .assistant
  | "command" => some .command
  | "system" => some .system
  | _ => none

theorem MessageType.ofValue_value (t : MessageType) : MessageType.ofValue t.value = some t := by
  cases t <;> rfl

inductive JsonVal where
  | str (s : String)
  | int (n : Int)
  | bool (b : Bool)
  | num (lit : String)
  | null
deriving DecidableEq

structure ConversationEntry where
  type : MessageType
  content : String
  timestamp : PyDateTime
  metadata : List (String × JsonVal)
deriving DecidableEq

/-! ## Conversation persistence (ClaudeLocal8.py lines 127-191)

The history file holds the json.dumps rendering of a list of records,
one per entry.  json.dumps/json.loads are exact inverses on this data
(strings, ints, lists, objects), so the persisted file is modelled at
the record level: SavedEntry is exactly the dict built by _save_history. -/

structure SavedEntry where
  type : String
  content : String
  timestamp : String
  metadata : List (String × JsonVal)
deriving DecidableEq

/-- The record _save_history builds for one entry (lines 163-171). -/
def entryToSaved (e : ConversationEntry) : SavedEntry :=
  { type := e.type.value
    content := e.content
    timestamp := isoformat e.timestamp
    metadata := e.metadata }

/-- The ConversationEntry _load_history reconstructs from one record
(lines 181-189); none models the exception raised for a bad type value
or timestamp, which aborts the whole load. -/
def savedToEntry (s : SavedEntry) : Option ConversationEntry := do
  let t ← MessageType.ofValue s.type
  let d ← fromisoformat s.timestamp
  some { type := t, content := s.content, timestamp := d, metadata := s.metadata }

/-- State of a ConversationManager: the in-memory window, the capacity,
and the current content of conversation_history.json (none when the file
does not exist or is unreadable). -/
structure ConvMgr where
  history : List ConversationEntry
  history_size : Nat
  persisted : Option (List SavedEntry)
deriving DecidableEq

/-- _save_history (lines 160-174): serialize the whole current window. -/
def save_history (h : List ConversationEntry) : List SavedEntry :=
  h.map entryToSaved

/-- _load_history (lines 176-191): if the file exists, parse every record;
any failure is caught and leaves the history unchanged.  The loaded list
is NOT truncated to history_size. -/
def load_history (m : ConvMgr) : ConvMgr :=
  match m.persisted with
  | none => m
  | some saved =>
    match saved.mapM savedToEntry with
    | some entries => { m with history := entries }
    | none => m

/-- add_entry (lines 136-141): append, pop the oldest when over capacity,
then persist the whole window. -/
def add_entry (m : ConvMgr) (e : ConversationEntry) : ConvMgr :=
  let h := m.history ++ [e]
  let h := if h.length > m.history_size then h.drop 1 else h
  { m with history := h, persisted := some (save_history h) }

theorem savedToEntry_entryToSaved (e : ConversationEntry) :
    savedToEntry (entryToSaved e) = some e := by
  rw [savedToEntry, entryToSaved]
  simp only [MessageType.ofValue_value, fromisoformat_isoformat, Option.some_bind]
  rfl

theorem mapM_savedToEntry_save (h : List ConversationEntry) :
    (save_history h).mapM savedToEntry = some h := by
  induction h with
  | nil => rfl
  | cons e rest ih =>
    rw [save_history, List.map_cons, List.mapM_cons, savedToEntry_entryToSaved]
    rw [save_history] at ih
    rw [ih]
    rfl

/-- Single add_entry step on a window within capacity. -/
theorem add_entry_within (m : ConvMgr) (e : ConversationEntry)
    (h : m.history.length ≤ m.history_size) :
    (add_entry m e).history =
      (m.history ++ [e]).drop (m.history.length + 1 - m.history_size) := by
  rw [add_entry]
  simp only [List.length_append, List.length_singleton]
  by_cases hfull : m.history.length = m.history_size
  · rw [if_pos (by omega)]
    have : m.history.length + 1 - m.history_size = 1 := by omega
    rw [this]
  · rw [if_neg (by omega)]
    have : m.history.length + 1 - m.history_size = 0 := by omega
    rw [this, List.drop_zero]

/-- Folding add_entry over a batch that fits entirely within capacity:
no eviction happens and the batch is appended in order. -/
theorem foldl_add_entry_no_evict (es : List ConversationEntry) :
    ∀ m : ConvMgr, m.history.length + es.length ≤ m.history_size →
      (es.foldl add_entry m).history = m.history ++ es ∧
      (es.foldl add_entry m).history_size = m.history_size := by
  induction es with
  | nil =>
    intro m hm
    exact ⟨by simp, rfl⟩
  | cons e rest ih =>
    intro m hm
    rw [List.foldl_cons]
    have hlen : (add_entry m e).history = m.history ++ [e] := by
      rw [add_entry]
      simp only [List.length_append, List.length_singleton, List.length_cons, List.length_nil] at hm ⊢
      rw [if_neg (by omega)]
    have hsize : (add_entry m e).history_size = m.history_size := rfl
    have hfit : (add_entry m e).history.length + rest.length ≤ (add_entry m e).history_size := by
      rw [hlen, hsize]
      simp only [List.length_append, List.length_singleton, List.length_cons, List.length_nil] at hm ⊢
      omega
    obtain ⟨h1, h2⟩ := ih (add_entry m e) hfit
    rw [hlen] at h1
    rw [hsize] at h2
    refine ⟨?_, h2⟩
    rw [h1]
    simp

theorem add_entry_history (m : ConvMgr) (e : ConversationEntry) :
    (add_entry m e).history =
      if (m.history ++ [e]).length > m.history_size then (m.history ++ [e]).drop 1
      else m.history ++ [e] := rfl

theorem add_entry_size (m : ConvMgr) (e : ConversationEntry) :
    (add_entry m e).history_size = m.history_size := rfl

/-- When the window is already over capacity, one append evicts exactly one
entry, so the length does not shrink below its old value. -/
theorem add_entry_length_over (m : ConvMgr) (e : ConversationEntry)
    (h : m.history.length > m.history_size) :
    (add_entry m e).history.length = m.history.length := by
  rw [add_entry_history]
  rw [if_pos (by simp only [List.length_append, List.length_singleton]; omega)]
  simp only [List.length_drop, List.length_append, List.length_singleton]
  omega

/-- The length bound is preserved by add_entry when it already held. -/
theorem add_entry_length_le (m : ConvMgr) (e : ConversationEntry)
    (h : m.history.length ≤ m.history_size) :
    (add_entry m e).history.length ≤ m.history_size := by
  rw [add_entry_history]
  split
  · simp only [List.length_drop, List.length_append, List.length_singleton]
    omega
  · rename_i hc
    simp only [List.length_append, List.length_singleton] at hc ⊢
    omega

theorem load_history_eq (m : ConvMgr) (saved : List SavedEntry)
    (entries : List ConversationEntry) (hp : m.persisted = some saved)
    (hparse : saved.mapM savedToEntry = some entries) :
    load_history m = { m with history := entries } := by
  rw [load_history, hp]
  dsimp only
  rw [hparse]

/-- C6: for a window within capacity, add_entry appends at the end and
evicts exactly the oldest entry when the capacity is exceeded; appending
N + 1 entries to an empty history of capacity N leaves exactly N entries
with the first-appended entry evicted. -/
theorem history_fifo_eviction (N : Nat) (p : Option (List SavedEntry))
    (m : ConvMgr) (e : ConversationEntry) (es : List ConversationEntry)
    (hm : m.history.length ≤ m.history_size) (hes : es.length = N + 1) :
    (add_entry m e).history =
      (m.history ++ [e]).drop (m.history.length + 1 - m.history_size) ∧
    (es.foldl add_entry ⟨[], N, p⟩).history = es.drop 1 ∧
    (es.foldl add_entry ⟨[], N, p⟩).history.length = N := by
  refine ⟨add_entry_within m e hm, ?_⟩
  have hne : es ≠ [] := by
    intro h
    rw [h] at hes
    simp at hes
  have hsplit : es.dropLast ++ [es.getLast hne] = es := List.dropLast_append_getLast hne
  have hinitlen : es.dropLast.length = N := by
    rw [List.length_dropLast, hes]
    omega
  obtain ⟨hMh, hMs⟩ :=
    foldl_add_entry_no_evict es.dropLast (⟨[], N, p⟩ : ConvMgr) (by simp [hinitlen])
  have hfold : es.foldl add_entry ⟨[], N, p⟩ =
      add_entry (es.dropLast.foldl add_entry ⟨[], N, p⟩) (es.getLast hne) := by
    conv_lhs => rw [← hsplit]
    rw [List.foldl_append]
    rfl
  simp only [List.nil_append] at hMh
  have hhist : (es.foldl add_entry ⟨[], N, p⟩).history = es.drop 1 := by
    rw [hfold, add_entry_history, hMh, hMs]
    rw [if_pos (by simp only [List.length_append, List.length_singleton, hinitlen]; omega)]
    rw [hsplit]
  refine ⟨hhist, ?_⟩
  rw [hhist, List.length_drop, hes]
  omega

/-- C7: saving the history with _save_history and reloading it with
_load_history reproduces the entries exactly: same order, same types,
same content, same timestamps, same metadata. -/
theorem history_round_trip (h : List ConversationEntry) (n : Nat) :
    (load_history ⟨[], n, some (save_history h)⟩).history = h := by
  rw [load_history_eq _ (save_history h) h rfl (mapM_savedToEntry_save h)]

/-- C9: _load_history loads every persisted entry without truncating to
the capacity, so a file holding more than history_size entries puts the
in-memory history over the capacity at startup; one subsequent add_entry
evicts only one entry and so does not restore the bound, which add_entry
preserves only when it already held. -/
theorem load_no_truncation (m : ConvMgr) (saved : List SavedEntry)
    (entries : List ConversationEntry) (e : ConversationEntry)
    (hp : m.persisted = some saved)
    (hparse : saved.mapM savedToEntry = some entries)
    (hover : entries.length > m.history_size) :
    (load_history m).history = entries ∧
    (load_history m).history.length > (load_history m).history_size ∧
    (add_entry (load_history m) e).history.length = entries.length ∧
    (add_entry (load_history m) e).history.length > (load_history m).history_size ∧
    (∀ (m2 : ConvMgr) (e2 : ConversationEntry), m2.history.length ≤ m2.history_size →
      (add_entry m2 e2).history.length ≤ m2.history_size) := by
  have hl : load_history m = { m with history := entries } :=
    load_history_eq m saved entries hp hparse
  have h1 : (load_history m).history = entries := by rw [hl]
  have h2 : (load_history m).history_size = m.history_size := by rw [hl]
  refine ⟨h1, ?_, ?_, ?_, fun m2 e2 hle => add_entry_length_le m2 e2 hle⟩
  · rw [h1, h2]
    exact hover
  · rw [add_entry_length_over _ e (by rw [h1, h2]; exact hover), h1]
  · rw [add_entry_length_over _ e (by rw [h1, h2]; exact hover), h1, h2]
    exact hover

/-! ## File operations (ClaudeLocal8.py lines 193-258)

The filesystem is a shadowing association list from path strings to text
content; a write conses a new binding, and lookup takes the newest.
Backups are the files written into the backups directory, recorded as
name/content pairs.  The dataclass FileAction carries optional fields, so
the file operations receive Option String where Python may pass None;
Python raises a TypeError when None reaches str.count, str.replace or
write_text, which each operation catches and converts to a False result,
exactly as any other internal failure. -/

abbrev FS : Type := List (String × String)

def lookupFS (fs : FS) (path : String) : Option String :=
  match fs with
  | [] => none
  | (p, v) :: rest => if p = path then some v else lookupFS rest path

def writeFS (fs : FS) (path v : String) : FS := (path, v) :: fs

structure Backup where
  name : String
  content : String
deriving DecidableEq

/-- Path(p).name: the final path component. -/
def pathName (p : String) : String :=
  ⟨(p.toList.reverse.takeWhile (fun c => c ≠ '/')).reverse⟩

/-- create_backup (lines 208-213): copy the current bytes of the file, if
it exists, to backups/name.timestamp.bak.  now is the strftime timestamp
string supplied by the clock. -/
def create_backup (fs : FS) (backups : List Backup) (now : String) (path : String) :
    List Backup :=
  match lookupFS fs path with
  | some content =>
    backups ++ [{ name := pathName path ++ "." ++ now ++ ".bak", content := content }]
  | none => backups

/-- Python str.count for a non-empty pattern: non-overlapping occurrences,
scanning left to right.  The fuel argument makes the recursion structural;
fuel equal to the length of the scanned text is always sufficient because
each step consumes at least one character when the pattern is non-empty. -/
def countTokF (pat : List Char) : Nat → List Char → Nat
  | 0, _ => 0
  | _ + 1, [] => 0
  | fuel + 1, c :: rest =>
    if pat.isPrefixOf (c :: rest) then
      1 + countTokF pat fuel ((c :: rest).drop pat.length)
    else countTokF pat fuel rest

/-- Python str.count: the empty pattern is counted len + 1 times. -/
def pyCount (s pat : String) : Nat :=
  if pat.toList = [] then s.toList.length + 1
  else countTokF pat.toList s.toList.length s.toList

/-- Python str.replace for a non-empty pattern: replace non-overlapping
occurrences left to right, with the same structural fuel as countTokF. -/
def replaceTokF (pat rep : List Char) : Nat → List Char → List Char
  | 0, s => s
  | _ + 1, [] => []
  | fuel + 1, c :: rest =>
    if pat.isPrefixOf (c :: rest) then
      rep ++ replaceTokF pat rep fuel ((c :: rest).drop pat.length)
    else c :: replaceTokF pat rep fuel rest

/-- Python str.replace: the empty pattern inserts the replacement at every
position, including both ends. -/
def pyReplace (s pat rep : String) : String :=
  if pat.toList = [] then
    ⟨rep.toList ++ (s.toList.map (fun c => c :: rep.toList)).flatten⟩
  else ⟨replaceTokF pat.toList rep.toList s.toList.length s.toList⟩

/-- update_file (lines 215-232).  Returns (success, filesystem, backups).
The backup is taken first; then the file is read (a missing file raises
inside the try and yields False); a None old_str raises TypeError at
str.count (caught, False); a count different from 1 raises ValueError
(caught, False); a None new_str raises TypeError at str.replace (caught,
False); otherwise the replacement is written and True is returned. -/
def update_file (fs : FS) (backups : List Backup) (now : String)
    (file_path : String) (old_str new_str : Option String) :
    Bool × FS × List Backup :=
  let backups := create_backup fs backups now file_path
  match lookupFS fs file_path with
  | none => (false, fs, backups)
  | some content =>
    match old_str with
    | none => (false, fs, backups)
    | some o =>
      if pyCount content o ≠ 1 then (false, fs, backups)
      else
        match new_str with
        | none => (false, fs, backups)
        | some n => (true, writeFS fs file_path (pyReplace content o n), backups)

/-- rewrite_file (lines 234-244): backup if present, then overwrite
unconditionally; a None content raises TypeError at write_text (caught,
False, nothing written). -/
def rewrite_file (fs : FS) (backups : List Backup) (now : String)
    (file_path : String) (content : Option String) : Bool × FS × List Backup :=
  let backups := create_backup fs backups now file_path
  match content with
  | none => (false, fs, backups)
  | some c => (true, writeFS fs file_path c, backups)

/-- create_file (lines 246-258): refuse when the target exists (the
FileExistsError is caught and reported as False); no backup is ever taken;
a None content raises TypeError before anything is written. -/
def create_file (fs : FS) (backups : List Backup)
    (file_path : String) (content : Option String) : Bool × FS × List Backup :=
  match lookupFS fs file_path with
  | some _ => (false, fs, backups)
  | none =>
    match content with
    | none => (false, fs, backups)
    | some c => (true, writeFS fs file_path c, backups)

/-- Modelled from the words of the specification: the number of positions
at which old occurs as a substring of content, counting overlapping
occurrences.  This is the predicate the claim states; the source instead
uses Python str.count, which counts non-overlapping occurrences. -/
def substrOccurrences (content old : String) : Nat :=
  ((List.range (content.toList.length - old.toList.length + 1)).filter
    (fun i => old.toList.isPrefixOf (content.toList.drop i))).length

/-- The backup record produced for one mutation of path. -/
def backupOf (path now content : String) : Backup :=
  { name := pathName path ++ "." ++ now ++ ".bak", content := content }

theorem create_backup_exists (fs : FS) (backups : List Backup) (now path content : String)
    (h : lookupFS fs path = some content) :
    create_backup fs backups now path = backups ++ [backupOf path now content] := by
  rw [create_backup, h, backupOf]

theorem update_file_eq (fs : FS) (backups : List Backup) (now path old new content : String)
    (h : lookupFS fs path = some content) :
    update_file fs backups now path (some old) (some new) =
      if pyCount content old ≠ 1 then
        (false, fs, create_backup fs backups now path)
      else
        (true, writeFS fs path (pyReplace content old new),
          create_backup fs backups now path) := by
  rw [update_file, h]

/-- C3 (amended): with the target file readable, update_file succeeds iff
Python str.count reports exactly one (non-overlapping) occurrence of the
old string; when that count is 0 or at least 2 the operation fails and the
file content is untouched; and in both outcomes the backup copy of the
pre-call content exists, having been created before the occurrence check. -/
theorem update_file_unique_count (fs : FS) (backups : List Backup)
    (now path old new content : String) (hread : lookupFS fs path = some content) :
    ((update_file fs backups now path (some old) (some new)).1 = true ↔
      pyCount content old = 1) ∧
    (pyCount content old ≠ 1 →
      update_file fs backups now path (some old) (some new) =
        (false, fs, backups ++ [backupOf path now content])) ∧
    (pyCount content old = 1 →
      update_file fs backups now path (some old) (some new) =
        (true, writeFS fs path (pyReplace content old new),
          backups ++ [backupOf path now content])) := by
  have he := update_file_eq fs backups now path old new content hread
  have hb := create_backup_exists fs backups now path content hread
  by_cases hc : pyCount content old = 1
  · rw [he, if_neg (by omega), hb]
    exact ⟨by simp [hc], fun hn => absurd hc hn, fun _ => rfl⟩
  · rw [he, if_pos hc, hb]
    exact ⟨by simp [hc], fun _ => rfl, fun h1 => absurd h1 hc⟩

/-- C8: create_file on an existing path fails, changes neither the
filesystem nor the backups (no backup is created), and in particular never
overwrites the existing content. -/
theorem create_file_never_overwrites (fs : FS) (backups : List Backup)
    (path content c : String) (h : lookupFS fs path = some c) :
    create_file fs backups path (some content) = (false, fs, backups) ∧
    lookupFS (create_file fs backups path (some content)).2.1 path = some c := by
  rw [create_file, h]
  exact ⟨rfl, h⟩

/-! ## Command runner (ClaudeLocal8.py lines 406-438)

execute_command is parameterized by the behavior of the spawned process:
either it finishes within the timeout with some output and exit code, or
it is still running when the timeout expires.  The outcome records the
result, whether a process was spawned at all, and whether it was killed.
The captured output is decoded and stripped; execution_time is the float
wall-clock duration, carried as an opaque integer tick count since no
claim inspects it. -/

structure CommandOutput where
  stdout : String
  stderr : String
  returncode : Int
  execution_time : Int
deriving DecidableEq

inductive ProcBehavior where
  | completes (stdout stderr : String) (returncode : Int) (execution_time : Int)
  | runsOver

inductive ExecError where
  | blockedErr (msg : String)
  | timeoutErr (msg : String)
deriving DecidableEq

structure ExecOutcome where
  result : Except ExecError CommandOutput
  spawned : Bool
  killed : Bool

def blockedCommands : List String := ["rm", "sudo", "su", "dd"]

/-- The security check on line 412:
any(cmd in command.split() for cmd in blocked_commands). -/
def blockedCheck (command : String) : Bool :=
  blockedCommands.any (fun b => (pySplit command).contains b)

def execute_command (proc : ProcBehavior) (command : String) (timeout : Nat) : ExecOutcome :=
  if blockedCheck command then
    { result := .error (.blockedErr ("Command contains blocked terms: " ++ command)),
      spawned := false, killed := false }
  else
    match proc with
    | .completes out err rc t =>
      { result := .ok
          { stdout := pyStrip out, stderr := pyStrip err,
            returncode := rc, execution_time := t },
        spawned := true, killed := false }
    | .runsOver =>
      { result := .error (.timeoutErr
          ("Command timed out after " ++ toString timeout ++ " seconds: " ++ command)),
        spawned := true, killed := true }

theorem blockedCheck_iff (command : String) :
    blockedCheck command = true ↔ ∃ tok ∈ pySplit command, tok ∈ blockedCommands := by
  rw [blockedCheck, List.any_eq_true]
  constructor
  · rintro ⟨b, hbmem, hc⟩
    exact ⟨b, by simpa using hc, hbmem⟩
  · rintro ⟨tok, htok, hbl⟩
    exact ⟨tok, hbl, by simpa using htok⟩

/-- C2: execute_command fails with the blocked-command validation error
and without spawning a process exactly when some whitespace-separated
token of the command equals (as a whole token) one of rm, sudo, su, dd. -/
theorem command_denylist_token_match (command : String) (timeout : Nat)
    (proc : ProcBehavior) :
    ((∃ msg, (execute_command proc command timeout).result =
        Except.error (ExecError.blockedErr msg)) ∧
      (execute_command proc command timeout).spawned = false) ↔
    ∃ tok ∈ pySplit command, tok ∈ blockedCommands := by
  by_cases hb : blockedCheck command = true
  · constructor
    · intro _
      exact (blockedCheck_iff command).mp hb
    · intro _
      exact ⟨⟨"Command contains blocked terms: " ++ command,
        by simp [execute_command, hb]⟩, by simp [execute_command, hb]⟩
  · have hb2 : blockedCheck command = false := by
      simpa using hb
    constructor
    · rintro ⟨⟨msg, hres⟩, hsp⟩
      exfalso
      cases proc <;> simp [execute_command, hb2] at hsp
    · intro hex
      exact absurd ((blockedCheck_iff command).mpr hex) (by simp [hb2])

/-! ## Python values and dictionaries

The JSON values the model returns after json.loads, used by the action
plan interpreter.  dictGet is dict subscription; pyIter enumerates the
values Python iteration yields (list elements, string characters, dict
keys) and is none for non-iterable values, where the for statement raises
TypeError. -/

inductive PyVal where
  | str (s : String)
  | int (n : Int)
  | bool (b : Bool)
  | list (xs : List PyVal)
  | dict (kvs : List (String × PyVal))
  | null

def dictGet (kvs : List (String × PyVal)) (k : String) : Option PyVal :=
  match kvs with
  | [] => none
  | (k2, v) :: rest => if k2 = k then some v else dictGet rest k

def pyIter : PyVal → Option (List PyVal)
  | .list xs => some xs
  | .str s => some (s.toList.map (fun c => PyVal.str c.toString))
  | .dict kvs => some (kvs.map (fun kv => PyVal.str kv.1))
  | _ => none

def pyTruthy : PyVal → Bool
  | .str s => s != ""
  | .int n => n != 0
  | .bool b => b
  | .list xs => !xs.isEmpty
  | .dict kvs => !kvs.isEmpty
  | .null => false

/-- Python str() as used when a plan value is interpolated into text.  The
rendering of containers is simplified; no claim depends on it. -/
def pyStrOf : PyVal → String
  | .str s => s
  | .int n => toString n
  | .bool b => if b then "True" else "False"
  | .null => "None"
  | .list _ => "<list>"
  | .dict _ => "<dict>"

/-! ## Task state (ClaudeLocal8.py lines 31-59) -/

structure TaskState where
  in_progress : Bool
  completed : Bool
  attempts : Nat
  max_attempts : Nat
  last_error : Option String
  start_time : PyDateTime
deriving DecidableEq

def TaskState.should_retry (t : TaskState) : Bool :=
  t.in_progress && !t.completed && decide (t.attempts < t.max_attempts)

/-- The TaskState() constructed by default() before a task starts. -/
def TaskState.init (start : PyDateTime) : TaskState :=
  { in_progress := false, completed := false, attempts := 0, max_attempts := 3,
    last_error := none, start_time := start }

/-- self.current_task.last_error = e, guarded by `if self.current_task`. -/
def setLastErr (t? : Option TaskState) (e : String) : Option TaskState :=
  t?.map (fun t => { t with last_error := some e })

/-! ## Environment of external collaborators

api gives the outcome of client.messages.create on the k-th attempt of
the current task (exn models any exception raised inside
send_to_anthropic's try, including an invalid response object); parse
models json.loads, none being JSONDecodeError; proc gives the behavior of
the process spawned for a command; now and nowDT are the clock readings
used for backup names and entry timestamps. -/

inductive ApiOutcome where
  | exn (msg : String)
  | text (t : String)

structure Env where
  api : Nat → ApiOutcome
  parse : String → Option PyVal
  proc : String → ProcBehavior
  command_timeout : Nat
  now : String
  nowDT : PyDateTime

/-- Observable state threaded through the interpreter and the engine:
conversation manager, filesystem, backups, the log of backoff sleeps the
engine has performed (with their durations in seconds), and the number of
model requests sent. -/
structure CoreState where
  conv : ConvMgr
  fs : FS
  backups : List Backup
  sleeps : List Nat
  apiCalls : Nat

def assistantEntry (content : String) (now : PyDateTime) : ConversationEntry :=
  { type := .assistant, content := content, timestamp := now, metadata := [] }

def userEntry (content : String) (now : PyDateTime) : ConversationEntry :=
  { type := .user, content := content, timestamp := now, metadata := [] }

def cmdEntry (cmd : String) (out : CommandOutput) (now : PyDateTime) : ConversationEntry :=
  { type := .command, content := cmd, timestamp := now,
    metadata := [("stdout", .str out.stdout), ("stderr", .str out.stderr),
      ("returncode", .int out.returncode), ("execution_time", .int out.execution_time)] }

/-! ## Action plan interpreter (ClaudeLocal8.py lines 299-404) -/

def ExecError.msg : ExecError → String
  | .blockedErr m => m
  | .timeoutErr m => m

/-- Pydantic model FileAction (lines 193-199). -/
structure FileAction where
  file_path : String
  command : String
  content : Option String
  old_str : Option String
  new_str : Option String

def getOptStr (kvs : List (String × PyVal)) (k : String) : Option (Option String) :=
  match dictGet kvs k with
  | none => some none
  | some .null => some none
  | some (.str s) => some (some s)
  | some _ => none

/-- FileAction(**action): requires file_path and command as strings, the
other fields optional strings; extra keys (like type) are ignored; none
models the pydantic ValidationError. -/
def parseFileAction (kvs : List (String × PyVal)) : Option FileAction := do
  let fp ← match dictGet kvs "file_path" with
    | some (.str s) => some s
    | _ => none
  let c ← match dictGet kvs "command" with
    | some (.str s) => some s
    | _ => none
  let content ← getOptStr kvs "content"
  let os ← getOptStr kvs "old_str"
  let ns ← getOptStr kvs "new_str"
  some { file_path := fp, command := c, content := content, old_str := os, new_str := ns }

/-- action.get('timeout', self.config.command_timeout).  A non-integer
value would only blow up later inside asyncio.wait_for; that failure is
modelled here as the per-action error it becomes. -/
def getTimeout (kvs : List (String × PyVal)) (dflt : Nat) : Except String Nat :=
  match dictGet kvs "timeout" with
  | none => .ok dflt
  | some (.int n) => .ok n.toNat
  | some _ => .error "TypeError: invalid timeout value"

/-- The body of the per-action try on lines 313-395: dispatch one action
dict that has a type key.  Every failure path is caught by the except on
line 390, which records the message as the current task's last error and
continues, so runAction never raises.  An action whose type is not
command/say/file matches no branch and does nothing. -/
def runAction (env : Env) (core : CoreState) (task : Option TaskState)
    (akvs : List (String × PyVal)) : CoreState × Option TaskState :=
  match dictGet akvs "type" with
  | some (.str "command") =>
    match dictGet akvs "command" with
    | some (.str cmd) =>
      match getTimeout akvs env.command_timeout with
      | .error e => (core, setLastErr task e)
      | .ok timeout =>
        let o := execute_command (env.proc cmd) cmd timeout
        match o.result with
        | .error e => (core, setLastErr task e.msg)
        | .ok out =>
          let core := { core with conv := add_entry core.conv (cmdEntry cmd out env.nowDT) }
          if out.returncode != 0 then
            (core, setLastErr task ("Command failed: " ++ out.stderr))
          else (core, task)
    | some _ => (core, setLastErr task "AttributeError: command is not a string")
    | none => (core, setLastErr task "KeyError: command")
  | some (.str "say") =>
    match dictGet akvs "message" with
    | some v =>
      ({ core with conv := add_entry core.conv (assistantEntry (pyStrOf v) env.nowDT) }, task)
    | none => (core, setLastErr task "KeyError: message")
  | some (.str "file") =>
    match parseFileAction akvs with
    | none => (core, setLastErr task "ValidationError: invalid file action")
    | some fa =>
      let r :=
        if fa.command = "update" then
          update_file core.fs core.backups env.now fa.file_path fa.old_str fa.new_str
        else if fa.command = "rewrite" then
          rewrite_file core.fs core.backups env.now fa.file_path fa.content
        else if fa.command = "create" then
          create_file core.fs core.backups fa.file_path fa.content
        else (false, core.fs, core.backups)
      let core := { core with fs := r.2.1, backups := r.2.2 }
      if r.1 then (core, task)
      else (core, setLastErr task ("File operation " ++ fa.command ++ " failed"))
  | _ => (core, task)

/-- Result of process_actions: the state, the actions the for loop
visited, and the exception text when process_actions raises to its
caller (raised = none means it returned normally). -/
structure PAResult where
  core : CoreState
  task : Option TaskState
  attempted : List PyVal
  raised : Option String

/-- The for loop on lines 308-395.  An element that is not a dict with a
type key is logged and skipped (lines 309-311); every other element goes
through runAction, whose failures are all caught per-action; the loop
itself never raises. -/
def processList (env : Env) : List PyVal → CoreState → Option TaskState → List PyVal →
    PAResult
  | [], core, task, visited => ⟨core, task, visited.reverse, none⟩
  | a :: rest, core, task, visited =>
    match a with
    | .dict akvs =>
      if (dictGet akvs "type").isSome then
        let r := runAction env core task akvs
        processList env rest r.1 r.2 (a :: visited)
      else processList env rest core task (a :: visited)
    | _ => processList env rest core task (a :: visited)

/-- process_actions (lines 299-404).  The up-front validation raises
ValueError before the plan-level try; a non-iterable actions value makes
the for statement raise TypeError inside the plan-level try, whose except
records the error on the task and re-raises (lines 399-404); otherwise the
loop runs to completion and nothing propagates. -/
def process_actions (env : Env) (core : CoreState) (task : Option TaskState)
    (actions_data : PyVal) : PAResult :=
  match actions_data with
  | .dict kvs =>
    match dictGet kvs "actions" with
    | none => ⟨core, task, [], some "Invalid actions data format"⟩
    | some av =>
      match pyIter av with
      | none =>
        ⟨core, setLastErr task "TypeError: actions value is not iterable", [],
          some "TypeError: actions value is not iterable"⟩
      | some acts => processList env acts core task []
  | _ => ⟨core, task, [], some "Invalid actions data format"⟩

theorem processList_no_raise (env : Env) (acts : List PyVal) :
    ∀ (core : CoreState) (task : Option TaskState) (visited : List PyVal),
      (processList env acts core task visited).raised = none ∧
      (processList env acts core task visited).attempted = visited.reverse ++ acts := by
  induction acts with
  | nil =>
    intro core task visited
    exact ⟨rfl, by simp [processList]⟩
  | cons a rest ih =>
    intro core task visited
    match a with
    | .dict akvs =>
      rw [processList]
      dsimp only
      split
      · obtain ⟨h1, h2⟩ := ih (runAction env core task akvs).1 (runAction env core task akvs).2 (PyVal.dict akvs :: visited)
        refine ⟨h1, ?_⟩
        rw [h2]
        simp
      · obtain ⟨h1, h2⟩ := ih core task (PyVal.dict akvs :: visited)
        refine ⟨h1, ?_⟩
        rw [h2]
        simp
    | .str s =>
      obtain ⟨h1, h2⟩ := ih core task (PyVal.str s :: visited)
      exact ⟨h1, by rw [processList, h2] <;> simp⟩
    | .int n =>
      obtain ⟨h1, h2⟩ := ih core task (PyVal.int n :: visited)
      exact ⟨h1, by rw [processList, h2] <;> simp⟩
    | .bool b =>
      obtain ⟨h1, h2⟩ := ih core task (PyVal.bool b :: visited)
      exact ⟨h1, by rw [processList, h2] <;> simp⟩
    | .list xs =>
      obtain ⟨h1, h2⟩ := ih core task (PyVal.list xs :: visited)
      exact ⟨h1, by rw [processList, h2] <;> simp⟩
    | .null =>
      obtain ⟨h1, h2⟩ := ih core task (PyVal.null :: visited)
      exact ⟨h1, by rw [processList, h2] <;> simp⟩

theorem setLastErr_setLastErr (t? : Option TaskState) (m1 m2 : String) :
    setLastErr (setLastErr t? m1) m2 = setLastErr t? m2 := by
  cases t? <;> rfl

/-- Every branch of the per-action dispatch either leaves the task alone
(the action succeeded or was a no-op) or records the caught failure
message as the current task's last error, touching nothing else. -/
theorem runAction_task (env : Env) (core : CoreState) (task : Option TaskState)
    (akvs : List (String × PyVal)) :
    (runAction env core task akvs).2 = task ∨
    ∃ msg, (runAction env core task akvs).2 = setLastErr task msg := by
  simp only [runAction]
  repeat' split
  all_goals first
    | exact Or.inl rfl
    | exact Or.inr ⟨_, rfl⟩

/-- Across a whole action list, the task is either untouched or carries
the last caught failure message in last_error. -/
theorem processList_task (env : Env) (acts : List PyVal) :
    ∀ (core : CoreState) (task : Option TaskState) (visited : List PyVal),
      (processList env acts core task visited).task = task ∨
      ∃ msg, (processList env acts core task visited).task = setLastErr task msg := by
  induction acts with
  | nil =>
    intro core task visited
    exact Or.inl rfl
  | cons a rest ih =>
    intro core task visited
    match a with
    | .dict akvs =>
      rw [processList]
      dsimp only
      split
      · rcases runAction_task env core task akvs with hr | ⟨m, hr⟩ <;>
          rcases ih (runAction env core task akvs).1 (runAction env core task akvs).2
            (PyVal.dict akvs :: visited) with h | ⟨m2, h⟩
        · exact Or.inl (by rw [h, hr])
        · exact Or.inr ⟨m2, by rw [h, hr]⟩
        · exact Or.inr ⟨m, by rw [h, hr]⟩
        · exact Or.inr ⟨m2, by rw [h, hr, setLastErr_setLastErr]⟩
      · exact ih core task (PyVal.dict akvs :: visited)
    | .str s => exact ih core task (PyVal.str s :: visited)
    | .int n => exact ih core task (PyVal.int n :: visited)
    | .bool b => exact ih core task (PyVal.bool b :: visited)
    | .list xs => exact ih core task (PyVal.list xs :: visited)
    | .null => exact ih core task (PyVal.null :: visited)

/-- C4 (amended): for every plan that is a dict whose actions value is
iterable, process_actions returns without raising and the for loop visits
every action in order; each individual failure is caught and recorded as
the current task's last error: every per-action dispatch either leaves the
task unchanged or performs exactly a last_error recording, and the plan as
a whole leaves the task either unchanged or holding the last caught
failure message.  (A dict whose actions value is not iterable instead
raises a TypeError through the re-raising outer handler, so the original
claim's premise is too weak.) -/
theorem process_actions_isolates_failures (env : Env) (core : CoreState)
    (task : Option TaskState) (kvs : List (String × PyVal)) (av : PyVal)
    (acts : List PyVal) (hav : dictGet kvs "actions" = some av)
    (hiter : pyIter av = some acts) :
    (process_actions env core task (.dict kvs)).raised = none ∧
    (process_actions env core task (.dict kvs)).attempted = acts ∧
    ((process_actions env core task (.dict kvs)).task = task ∨
      ∃ msg, (process_actions env core task (.dict kvs)).task = setLastErr task msg) ∧
    (∀ (core2 : CoreState) (task2 : Option TaskState) (akvs : List (String × PyVal)),
      (runAction env core2 task2 akvs).2 = task2 ∨
      ∃ msg, (runAction env core2 task2 akvs).2 = setLastErr task2 msg) := by
  rw [process_actions, hav]
  dsimp only
  rw [hiter]
  obtain ⟨h1, h2⟩ := processList_no_raise env acts core task []
  exact ⟨h1, by rw [h2]; simp, processList_task env acts core task [],
    fun core2 task2 akvs => runAction_task env core2 task2 akvs⟩

/-! ## Conversation rendering (ClaudeLocal8.py lines 143-158)

get_recent_context is included for completeness of the Conversation Store
contract; it only influences the request text, which the api collaborator
abstracts. -/

def mdGet (md : List (String × JsonVal)) (k : String) : Option JsonVal :=
  match md with
  | [] => none
  | (k2, v) :: rest => if k2 = k then some v else mdGet rest k

/-- Truthiness of a metadata lookup, as used by `if entry.metadata.get(..)`.
A num literal is treated as truthy; the program only stores strings there. -/
def mdTruthy : Option JsonVal → Bool
  | some (.str s) => s != ""
  | some (.int n) => n != 0
  | some (.bool b) => b
  | some (.num _) => true
  | some .null => false
  | none => false

/-- str() of a metadata lookup result, as interpolated into the context. -/
def pyStrOfJson : Option JsonVal → String
  | some (.str s) => s
  | some (.int n) => toString n
  | some (.bool b) => if b then "True" else "False"
  | some (.num lit) => lit
  | some .null => "None"
  | none => "None"

def capitalizeStr (s : String) : String :=
  match s.toList with
  | [] => ⟨[]⟩
  | c :: rest => ⟨c.toUpper :: rest⟩

/-- Python history[-n:] for n the configured window (note h[-0:] is h). -/
def lastWindow {α : Type} (h : List α) (n : Nat) : List α :=
  if n = 0 then h else h.drop (h.length - n)

def formatEntry (e : ConversationEntry) : String :=
  match e.type with
  | .command =>
    let base := "Command executed: " ++ e.content ++ "\n"
    let base := if mdTruthy (mdGet e.metadata "stdout") then
        base ++ "└─ Output: " ++ pyStrOfJson (mdGet e.metadata "stdout") ++ "\n"
      else base
    if mdTruthy (mdGet e.metadata "stderr") then
      base ++ "└─ Errors: " ++ pyStrOfJson (mdGet e.metadata "stderr") ++ "\n"
    else base
  | t => capitalizeStr t.value ++ ": " ++ e.content

def get_recent_context (m : ConvMgr) : String :=
  String.intercalate "\n" ((lastWindow m.history m.history_size).map formatEntry)

/-! ## Task retry engine (ClaudeLocal8.py lines 440-582) -/

/-- send_to_anthropic (lines 440-504).  The full prompt that is built from
the system prompt, the rendered recent context and the task status block
only determines the request text, which the api collaborator abstracts,
indexed by the attempt number.  An exception anywhere inside the try (the
network call, or the ValueError for an invalid response) is caught: the
current task's last error is set and None is returned - nothing escapes. -/
def send_to_anthropic (env : Env) (attempt : Nat) (core : CoreState)
    (task : Option TaskState) : Option String × CoreState × Option TaskState :=
  let core := { core with apiCalls := core.apiCalls + 1 }
  match env.api attempt with
  | .exn msg => (none, core, setLastErr task msg)
  | .text t => (some (pyStrip t), core, task)

/-- The while loop of _process_input (lines 523-577), with fuel bounding
the number of iterations.  process_input passes fuel equal to
max_attempts - attempts, which the loop cannot exceed because every
iteration increments attempts; the Bool result records whether fuel ran
out while the guard still held, making exhaustion observable (it is false
in every run proved below). -/
def engineLoop (env : Env) : Nat → TaskState → CoreState → TaskState × CoreState × Bool
  | 0, t, core => (t, core, t.should_retry)
  | fuel + 1, t, core =>
    if t.should_retry then
      let t := { t with attempts := t.attempts + 1 }
      let s := send_to_anthropic env t.attempts core (some t)
      let core := s.2.1
      let t := (s.2.2).getD t
      match s.1 with
      | none =>
        let t := { t with last_error := some "No response received" }
        engineLoop env fuel t core
      | some r =>
        match env.parse r with
        | none =>
          let core := { core with conv := add_entry core.conv (assistantEntry r env.nowDT) }
          ({ t with completed := true }, core, false)
        | some v =>
          match v with
          | .dict kvs =>
            if (dictGet kvs "actions").isSome then
              let pa := process_actions env core (some t) v
              let t := pa.task.getD t
              match pa.raised with
              | none =>
                if pyTruthy ((dictGet kvs "needs_followup").getD .null) then
                  engineLoop env fuel t pa.core
                else ({ t with completed := true }, pa.core, false)
              | some e =>
                let t := { t with last_error := some e }
                if t.should_retry then
                  let core := { pa.core with
                    sleeps := pa.core.sleeps ++ [2 ^ (t.attempts - 1)] }
                  engineLoop env fuel t core
                else engineLoop env fuel t pa.core
            else
              let core := { core with
                conv := add_entry core.conv (assistantEntry r env.nowDT) }
              ({ t with completed := true }, core, false)
          | _ =>
            let core := { core with
              conv := add_entry core.conv (assistantEntry r env.nowDT) }
            ({ t with completed := true }, core, false)
    else (t, core, false)

structure ProcessOut where
  task : TaskState
  core : CoreState
  fuelExhausted : Bool
  reportedIncomplete : Bool

/-- _process_input (lines 521-582): run the loop, then report failure when
the task did not complete (lines 580-582). -/
def process_input (env : Env) (t : TaskState) (core : CoreState) : ProcessOut :=
  let r := engineLoop env (t.max_attempts - t.attempts) t core
  { task := r.1, core := r.2.1, fuelExhausted := r.2.2,
    reportedIncomplete := !r.1.completed }

structure ShellSt where
  core : CoreState
  task : Option TaskState

/-- default (lines 506-519): a blank line returns immediately; otherwise
the line is recorded as a user entry, a fresh TaskState is created with
in_progress set, and the retry engine runs. -/
def defaultHandler (env : Env) (line : String) (st : ShellSt) : ShellSt :=
  if pyStrip line = "" then st
  else
    let conv := add_entry st.core.conv (userEntry line env.nowDT)
    let t := { TaskState.init env.nowDT with in_progress := true }
    let r := process_input env t { st.core with conv := conv }
    { core := r.core, task := some r.task }

/-- One loop iteration when the model call raises: send_to_anthropic
swallows the exception and returns None, so the loop takes the
no-response branch and recurses immediately, with no sleep recorded. -/
theorem engineLoop_exn_step (env : Env) (fuel : Nat) (t : TaskState)
    (core : CoreState) (msg : String) (hr : t.should_retry = true)
    (hapi : env.api (t.attempts + 1) = ApiOutcome.exn msg) :
    engineLoop env (fuel + 1) t core =
      engineLoop env fuel
        { t with attempts := t.attempts + 1, last_error := some "No response received" }
        { core with apiCalls := core.apiCalls + 1 } := by
  rw [engineLoop, if_pos hr]
  simp only [send_to_anthropic, hapi]
  rfl

theorem engineLoop_all_exn (env : Env) (msgs : Nat → String)
    (hapi : ∀ k, env.api k = ApiOutcome.exn (msgs k)) :
    ∀ (fuel : Nat) (t : TaskState) (core : CoreState),
      t.in_progress = true → t.completed = false →
      t.max_attempts - t.attempts = fuel →
      (engineLoop env fuel t core).1.attempts = max t.max_attempts t.attempts ∧
      (engineLoop env fuel t core).1.completed = false ∧
      (engineLoop env fuel t core).2.1.sleeps = core.sleeps ∧
      (engineLoop env fuel t core).2.1.apiCalls = core.apiCalls + fuel ∧
      (engineLoop env fuel t core).2.2 = false := by
  intro fuel
  induction fuel with
  | zero =>
    intro t core hip hc hf
    have hge : t.max_attempts ≤ t.attempts := by omega
    have hsr : t.should_retry = false := by
      rw [TaskState.should_retry, hip, hc]
      simp
      omega
    rw [engineLoop]
    refine ⟨?_, hc, rfl, rfl, hsr⟩
    show t.attempts = max t.max_attempts t.attempts
    omega
  | succ fuel ih =>
    intro t core hip hc hf
    have hlt : t.attempts < t.max_attempts := by omega
    have hsr : t.should_retry = true := by
      rw [TaskState.should_retry, hip, hc]
      simp
      omega
    rw [engineLoop_exn_step env fuel t core (msgs (t.attempts + 1)) hsr
      (hapi (t.attempts + 1))]
    obtain ⟨h1, h2, h3, h4, h5⟩ := ih
      { t with attempts := t.attempts + 1, last_error := some "No response received" }
      { core with apiCalls := core.apiCalls + 1 } hip hc (by simp; omega)
    refine ⟨?_, h2, h3, ?_, h5⟩
    · rw [h1]
      show max t.max_attempts (t.attempts + 1) = max t.max_attempts t.attempts
      omega
    · rw [h4]
      show core.apiCalls + 1 + fuel = core.apiCalls + (fuel + 1)
      omega

/-- C1 (amended): when every model response fails with an exception, the
engine performs exactly max_attempts attempts, then reports the task
incomplete, and no exception propagates out of the loop; but no backoff
sleep ever occurs on this path, because send_to_anthropic catches the
exception internally and returns None, which the loop records as the
no-response case and retries immediately (the 2^(attempts-1) backoff runs
only when an exception reaches the loop body itself, which a failing
model call never does). -/
theorem retry_exhausts_without_backoff (env : Env) (msgs : Nat → String)
    (t : TaskState) (core : CoreState)
    (hapi : ∀ k, env.api k = ApiOutcome.exn (msgs k))
    (hip : t.in_progress = true) (hc : t.completed = false) (ha : t.attempts = 0) :
    (process_input env t core).task.attempts = t.max_attempts ∧
    (process_input env t core).task.completed = false ∧
    (process_input env t core).reportedIncomplete = true ∧
    (process_input env t core).core.sleeps = core.sleeps ∧
    (process_input env t core).core.apiCalls = core.apiCalls + t.max_attempts ∧
    (process_input env t core).fuelExhausted = false := by
  obtain ⟨h1, h2, h3, h4, h5⟩ :=
    engineLoop_all_exn env msgs hapi (t.max_attempts - t.attempts) t core hip hc rfl
  rw [process_input]
  refine ⟨?_, h2, ?_, h3, ?_, h5⟩
  · rw [h1]
    omega
  · simp [h2]
  · rw [h4]
    omega

/-- C10: an input line that is empty or consists only of whitespace makes
default return immediately: no user entry is appended, nothing is
persisted, no TaskState is created and no model request is sent - the
entire shell state is returned unchanged. -/
theorem blank_line_is_ignored (env : Env) (line : String) (st : ShellSt)
    (hws : line.toList.all pyIsSpace = true) :
    defaultHandler env line st = st := by
  have h1 : line.toList.dropWhile pyIsSpace = [] := by
    rw [List.dropWhile_eq_nil_iff]
    intro x hx
    exact List.all_eq_true.mp hws x hx
  have hs : pyStrip line = "" := by
    rw [pyStrip, h1]
    rfl
  rw [defaultHandler, if_pos hs]

/-- Supporting fact for the timeout contract: when the spawned process is
still running at the timeout, execute_command kills it and fails with a
TimeoutError whose message names both the command and the timeout value.
(The wall-clock bound of the claim is a real-time property outside this
embedding.) -/
theorem execute_command_timeout_kills (command : String) (timeout : Nat)
    (hnb : blockedCheck command = false) :
    execute_command ProcBehavior.runsOver command timeout =
      { result := Except.error (ExecError.timeoutErr
          ("Command timed out after " ++ toString timeout ++ " seconds: " ++ command)),
        spawned := true, killed := true } := by
  rw [execute_command]
  simp [hnb]

/-! ## Concrete fixtures for witnesses and counterexamples -/

def dt0 : PyDateTime := ⟨2026, 1, 1, 12, 0, 0, 0⟩

def env0 : Env :=
  { api := fun _ => ApiOutcome.exn "connection error"
    parse := fun _ => none
    proc := fun _ => ProcBehavior.completes "" "" 0 0
    command_timeout := 30
    now := "20260101_120000"
    nowDT := dt0 }

def conv0 : ConvMgr := ⟨[], 10, none⟩

def core0 : CoreState := ⟨conv0, [], [], [], 0⟩

def task0 : TaskState :=
  { in_progress := true, completed := false, attempts := 0, max_attempts := 3,
    last_error := none, start_time := dt0 }

def st0 : ShellSt := ⟨core0, none⟩

def fs3 : FS := [("notes.txt", "alpha beta")]

def core4 : CoreState := ⟨conv0, fs3, [], [], 0⟩

def e1 : ConversationEntry := ⟨.user, "one", dt0, []⟩

def e2 : ConversationEntry := ⟨.assistant, "two", dt0, []⟩

def e3 : ConversationEntry := ⟨.user, "three", dt0, []⟩

def m6 : ConvMgr := ⟨[], 2, none⟩

def m9 : ConvMgr := ⟨[], 2, some (save_history [e1, e2, e3])⟩

def planActs : List PyVal :=
  [ PyVal.dict [("type", .str "say"), ("message", .str "starting")],
    PyVal.dict [("type", .str "file"), ("command", .str "create"),
      ("file_path", .str "notes.txt"), ("content", .str "x")],
    PyVal.dict [("type", .str "say"), ("message", .str "done")] ]

/-! ## Witnesses and counterexamples -/

/-- Witness for C1 at a concrete run: three attempts, incomplete, no
sleeps, three model requests, the loop exiting by its own guard. -/
theorem retry_exhausts_without_backoff_witness :
    (∀ k, env0.api k = ApiOutcome.exn "connection error") ∧
    task0.in_progress = true ∧ task0.completed = false ∧ task0.attempts = 0 ∧
    ((process_input env0 task0 core0).task.attempts = task0.max_attempts ∧
      (process_input env0 task0 core0).task.completed = false ∧
      (process_input env0 task0 core0).reportedIncomplete = true ∧
      (process_input env0 task0 core0).core.sleeps = core0.sleeps ∧
      (process_input env0 task0 core0).core.apiCalls = core0.apiCalls + task0.max_attempts ∧
      (process_input env0 task0 core0).fuelExhausted = false) :=
  ⟨fun _ => rfl, rfl, rfl, rfl,
    retry_exhausts_without_backoff env0 (fun _ => "connection error") task0 core0
      (fun _ => rfl) rfl rfl rfl⟩

/-- Counterexample for C1 as stated: with max_attempts = 3 and every model
call raising, the claim asserts backoff sleeps of 1 and 2 seconds between
the attempts; the engine performs the 3 attempts but records no sleep at
all. -/
theorem retry_backoff_counterexample :
    (process_input env0 task0 core0).task.attempts = 3 ∧
    (process_input env0 task0 core0).task.completed = false ∧
    (process_input env0 task0 core0).core.sleeps = [] ∧
    (process_input env0 task0 core0).core.sleeps ≠ [1, 2] := by
  refine ⟨rfl, rfl, rfl, ?_⟩
  intro h
  have h2 : ([] : List Nat) = [1, 2] :=
    (rfl : (process_input env0 task0 core0).core.sleeps = ([] : List Nat)).symm.trans h
  exact absurd h2 (by decide)

/-- Witness for C3: a file containing one occurrence of the target. -/
theorem update_file_unique_count_witness :
    lookupFS fs3 "notes.txt" = some "alpha beta" ∧
    (((update_file fs3 [] "20260101_120000" "notes.txt"
        (some "alpha") (some "gamma")).1 = true ↔
      pyCount "alpha beta" "alpha" = 1) ∧
    (pyCount "alpha beta" "alpha" ≠ 1 →
      update_file fs3 [] "20260101_120000" "notes.txt" (some "alpha") (some "gamma") =
        (false, fs3, [] ++ [backupOf "notes.txt" "20260101_120000" "alpha beta"])) ∧
    (pyCount "alpha beta" "alpha" = 1 →
      update_file fs3 [] "20260101_120000" "notes.txt" (some "alpha") (some "gamma") =
        (true, writeFS fs3 "notes.txt" (pyReplace "alpha beta" "alpha" "gamma"),
          [] ++ [backupOf "notes.txt" "20260101_120000" "alpha beta"]))) :=
  ⟨rfl, update_file_unique_count fs3 [] "20260101_120000" "notes.txt"
    "alpha" "gamma" "alpha beta" rfl⟩

/-- Counterexample for C3 as stated: aa occurs twice as a substring of
aaa (positions 0 and 1), yet update_file succeeds, because Python
str.count counts non-overlapping occurrences and reports 1. -/
theorem update_overlap_counterexample :
    substrOccurrences "aaa" "aa" = 2 ∧
    substrOccurrences "aaa" "aa" ≠ 1 ∧
    (update_file [("notes.txt", "aaa")] [] "20260101_120000" "notes.txt"
      (some "aa") (some "b")).1 = true := by
  refine ⟨by decide, by decide, ?_⟩
  rfl

/-- Witness for C4: a three-action plan whose second action, a create on
the already-existing notes.txt, does fail - the very create_file call the
run performs returns false - yet process_actions visits all three actions,
returns without raising, and the failure is recorded as the current
task's last error. -/
theorem process_actions_isolates_failures_witness :
    dictGet [("actions", PyVal.list planActs)] "actions" = some (PyVal.list planActs) ∧
    pyIter (PyVal.list planActs) = some planActs ∧
    ((process_actions env0 core4 (some task0)
        (.dict [("actions", PyVal.list planActs)])).raised = none ∧
      (process_actions env0 core4 (some task0)
        (.dict [("actions", PyVal.list planActs)])).attempted = planActs ∧
      ((process_actions env0 core4 (some task0)
          (.dict [("actions", PyVal.list planActs)])).task = some task0 ∨
        ∃ msg, (process_actions env0 core4 (some task0)
          (.dict [("actions", PyVal.list planActs)])).task = setLastErr (some task0) msg) ∧
      (∀ (core2 : CoreState) (task2 : Option TaskState) (akvs : List (String × PyVal)),
        (runAction env0 core2 task2 akvs).2 = task2 ∨
        ∃ msg, (runAction env0 core2 task2 akvs).2 = setLastErr task2 msg)) ∧
    (create_file core4.fs core4.backups "notes.txt" (some "x")).1 = false ∧
    (process_actions env0 core4 (some task0)
        (.dict [("actions", PyVal.list planActs)])).task =
      some { task0 with last_error := some "File operation create failed" } :=
  ⟨rfl, rfl, process_actions_isolates_failures env0 core4 (some task0)
    [("actions", PyVal.list planActs)] (PyVal.list planActs) planActs rfl rfl,
    rfl, rfl⟩

/-- Counterexample for C4 as stated: a dict that does contain an actions
key, but whose value is not iterable, makes process_actions raise through
the re-raising outer handler, not just the up-front format validation. -/
theorem process_actions_nonlist_counterexample :
    (process_actions env0 core0 (some task0) (PyVal.dict [("actions", PyVal.int 5)])).raised =
      some "TypeError: actions value is not iterable" := rfl

/-- Witness for C6: capacity 2, four adds: one within capacity plus the
three-entry batch scenario. -/
theorem history_fifo_eviction_witness :
    m6.history.length ≤ m6.history_size ∧ ([e1, e2, e3] : List _).length = 2 + 1 ∧
    ((add_entry m6 e1).history =
      (m6.history ++ [e1]).drop (m6.history.length + 1 - m6.history_size) ∧
    (([e1, e2, e3]).foldl add_entry ⟨[], 2, none⟩).history = [e1, e2, e3].drop 1 ∧
    (([e1, e2, e3]).foldl add_entry ⟨[], 2, none⟩).history.length = 2) :=
  ⟨by decide, rfl, history_fifo_eviction 2 none m6 e1 [e1, e2, e3] (by decide) rfl⟩

/-- Witness for C8: creating over an existing file fails and leaves it. -/
theorem create_file_never_overwrites_witness :
    lookupFS fs3 "notes.txt" = some "alpha beta" ∧
    (create_file fs3 [] "notes.txt" (some "new") = (false, fs3, []) ∧
      lookupFS (create_file fs3 [] "notes.txt" (some "new")).2.1 "notes.txt" =
        some "alpha beta") :=
  ⟨rfl, create_file_never_overwrites fs3 [] "notes.txt" "new" "alpha beta" rfl⟩

/-- Witness for C9: a persisted file of three entries loaded into a
manager of capacity two. -/
theorem load_no_truncation_witness :
    m9.persisted = some (save_history [e1, e2, e3]) ∧
    (save_history [e1, e2, e3]).mapM savedToEntry = some [e1, e2, e3] ∧
    ([e1, e2, e3] : List _).length > m9.history_size ∧
    ((load_history m9).history = [e1, e2, e3] ∧
      (load_history m9).history.length > (load_history m9).history_size ∧
      (add_entry (load_history m9) e1).history.length = ([e1, e2, e3] : List _).length ∧
      (add_entry (load_history m9) e1).history.length > (load_history m9).history_size ∧
      (∀ (m2 : ConvMgr) (e2x : ConversationEntry),
        m2.history.length ≤ m2.history_size →
        (add_entry m2 e2x).history.length ≤ m2.history_size)) :=
  ⟨rfl, mapM_savedToEntry_save [e1, e2, e3], by decide,
    load_no_truncation m9 (save_history [e1, e2, e3]) [e1, e2, e3] e1 rfl
      (mapM_savedToEntry_save [e1, e2, e3]) (by decide)⟩

/-- Witness for C10: a line of spaces and a tab leaves the state alone. -/
theorem blank_line_is_ignored_witness :
    ((" \t  ").toList.all pyIsSpace = true) ∧
    defaultHandler env0 " \t  " st0 = st0 :=
  ⟨by decide, blank_line_is_ignored env0 " \t  " st0 (by decide)⟩

end ClaudeLocal
